import Mathlib

/-!
Shallow embedding of the DPoR consensus snapshot engine
(consensus/dpor/snapshot.go) and the unconfirmed-block tracker
(miner/unconfirmed.go).

Conventions of the embedding:
* Go uint64 values are modelled as Nat; every Go operation that can wrap
  (addition, subtraction, multiplication on uint64) is mirrored with an
  explicit reduction modulo 2^64 (u64add, u64sub, u64mul).
* Go int64 values are modelled as Int.
* Addresses (20 bytes) and hashes (32 bytes) are modelled as Nat.
* Go maps from uint64 to address lists are modelled as association lists
  kept sorted by key (CommitteeMap); Go map iteration order is
  unspecified, we canonicalize it to ascending key order.
* Fallible Go functions return Except DporError; a Go runtime panic that
  the engine can hit (out-of-range slice of the candidate roster) is the
  explicit error value DporError.slicePanic.
* The election package is not part of the snapshot source; Elect is a
  function parameter (ElectFn) threaded through the operations that use it.
-/

set_option maxRecDepth 4000

namespace Dpor

/-- 2^64, the modulus of Go uint64 arithmetic. -/
def U64 : Nat := 18446744073709551616

/-- Go uint64 addition. -/
def u64add (a b : Nat) : Nat := (a + b) % U64

/-- Go uint64 subtraction (wraps on underflow). -/
def u64sub (a b : Nat) : Nat := (a % U64 + (U64 - b % U64)) % U64

/-- Go uint64 multiplication. -/
def u64mul (a b : Nat) : Nat := (a * b) % U64

/-- Reinterpretation of the low 64 bits of a non-negative big integer as a
signed 64-bit integer; models (*big.Int).Int64() on the value of
header.Hash().Big(). -/
def toInt64 (n : Nat) : Int :=
  let m := n % U64
  if m < 9223372036854775808 then (m : Int) else (m : Int) - (U64 : Int)

/-- 20-byte account identifier. -/
abbrev Address := Nat

/-- 32-byte digest. -/
abbrev Hash := Nat

/-- The fields of types.Header that the snapshot engine reads: the block
number and the value of the Hash() digest. -/
structure Header where
  number : Nat
  hashVal : Hash
  deriving DecidableEq, Repr, Inhabited

/-- Consensus engine parameters (configs.DporConfig fields used here). -/
structure DporConfig where
  termLen : Nat
  viewLen : Nat
  maxInitBlockNumber : Nat
  deriving DecidableEq, Repr, Inhabited

/-- A reputation entry: rpt.Rpt with Address and an int64 score. -/
structure Rpt where
  address : Address
  rpt : Int
  deriving DecidableEq, Repr, Inhabited

/-- rpt.RptList. -/
abbrev RptList := List Rpt

/-- The election function election.Elect; the election package is outside
the snapshot source, so the engine is parameterized by it. -/
abbrev ElectFn := RptList → Int → Nat → List Address

/-- Association list modelling a Go map from uint64 terms to committees,
kept sorted by key. -/
abbrev CommitteeMap := List (Nat × List Address)

/-- Lookup in a committee map. -/
def cmGet? : CommitteeMap → Nat → Option (List Address)
  | [], _ => none
  | (k, v) :: rest, t => if k = t then some v else cmGet? rest t

/-- Map assignment m[k] = v, keeping the list sorted by key. -/
def cmInsert : CommitteeMap → Nat → List Address → CommitteeMap
  | [], k, v => [(k, v)]
  | (k0, v0) :: rest, k, v =>
    if k < k0 then (k, v) :: (k0, v0) :: rest
    else if k = k0 then (k, v) :: rest
    else (k0, v0) :: cmInsert rest k v

/-- Map deletion delete(m, k). -/
def cmErase : CommitteeMap → Nat → CommitteeMap
  | [], _ => []
  | (k0, v0) :: rest, k =>
    if k0 = k then cmErase rest k else (k0, v0) :: cmErase rest k

/-- TermGapBetweenElectionAndMining. -/
def TermGapBetweenElectionAndMining : Nat := 3

/-- MaxSizeOfRecentSigners (= MaxSizeOfRecentValidators =
MaxSizeOfRecentProposers = 5). -/
def MaxSizeOfRecentSigners : Nat := 5

/-- Error taxonomy of the snapshot engine. slicePanic stands for the Go
runtime panic raised by the candidates()[:TermLen] slice when TermLen
exceeds the roster length; notFound stands for the database miss in
loadSnapshot. -/
inductive DporError where
  | invalidChain
  | validatorNotInCommittee
  | proposerNotInCommittee
  | signerNotInCommittee
  | genesisBlockNumber
  | slicePanic
  | notFound
  deriving DecidableEq, Repr, Inhabited

/-- The state of DporSnapshot: block number, block hash, candidate roster
and the three recent-committee maps. The config is carried alongside; the
ContractCaller field is omitted (its only consumer is commented out in the
source). -/
structure DporSnapshot where
  config : DporConfig
  number : Nat
  hash : Hash
  candidates : List Address
  recentSigners : CommitteeMap
  recentProposers : CommitteeMap
  recentValidators : CommitteeMap
  deriving DecidableEq, Repr, Inhabited

/-- Index computed by setRecentSigners and friends as
uint64(math.Max(0, float64(term-5))). For 5 ≤ term (below 2^53, where
float64 is exact on integers) this is term - 5; for term < 5 the uint64
subtraction wraps to about 2^64, the float64 conversion rounds it to 2^64,
and the out-of-range float-to-uint64 conversion yields 2^63 on amd64, a
key never present in the maps. -/
def evicteeOf (term : Nat) : Nat :=
  if 5 ≤ term then term - 5 else 9223372036854775808

/-- setRecentSigners: store the committee at the given term, then delete
the entry at the computed before-term. -/
def setRecentSigners (s : DporSnapshot) (term : Nat) (signers : List Address) :
    DporSnapshot :=
  { s with recentSigners := cmErase (cmInsert s.recentSigners term signers) (evicteeOf term) }

/-- setRecentValidators, same shape on the validators map. -/
def setRecentValidators (s : DporSnapshot) (term : Nat) (validators : List Address) :
    DporSnapshot :=
  { s with recentValidators := cmErase (cmInsert s.recentValidators term validators) (evicteeOf term) }

/-- setRecentProposers, same shape on the proposers map. -/
def setRecentProposers (s : DporSnapshot) (term : Nat) (proposers : List Address) :
    DporSnapshot :=
  { s with recentProposers := cmErase (cmInsert s.recentProposers term proposers) (evicteeOf term) }

/-- getRecentSigners: nil (here the empty list) when the term is absent. -/
def getRecentSigners (s : DporSnapshot) (term : Nat) : List Address :=
  (cmGet? s.recentSigners term).getD []

/-- getRecentProposers. -/
def getRecentProposers (s : DporSnapshot) (term : Nat) : List Address :=
  (cmGet? s.recentProposers term).getD []

/-- getRecentValidators. -/
def getRecentValidators (s : DporSnapshot) (term : Nat) : List Address :=
  (cmGet? s.recentValidators term).getD []

/-- TermOf: term index of a given block number. -/
def DporSnapshot.TermOf (s : DporSnapshot) (blockNum : Nat) : Nat :=
  if blockNum = 0 then 0
  else (blockNum - 1) / u64mul s.config.termLen s.config.viewLen

/-- Term: term index of the current block number. -/
def DporSnapshot.Term (s : DporSnapshot) : Nat := s.TermOf s.number

/-- FutureTermOf: TermOf plus the election-to-mining gap, in uint64. -/
def DporSnapshot.FutureTermOf (s : DporSnapshot) (blockNum : Nat) : Nat :=
  u64add (s.TermOf blockNum) TermGapBetweenElectionAndMining

/-- newSnapshot: genesis constructor; installs the seed signers at the
term of the given number in the signers map. -/
def newSnapshot (config : DporConfig) (number : Nat) (hash : Hash)
    (signers : List Address) : DporSnapshot :=
  let snap : DporSnapshot :=
    { config := config, number := number, hash := hash, candidates := []
      recentSigners := [], recentProposers := [], recentValidators := [] }
  setRecentSigners snap snap.Term signers

/-- The hard-coded default candidate roster of updateCandidates (ten
addresses, written as their 160-bit values). -/
def candidateAddresses : List Address :=
  [0xe94b7b6c5a0e526a4d97f9768ad6097bde25c62a,
   0xc05302acebd0730e3a18a058d7d1cb1204c4a092,
   0xef3dd127de235f15ffb4fc0d71469d1339df6465,
   0x3a18598184ef84198db90c28fdfdfdf56544f747,
   0x6e31e5b68a98dcd17264bd1ba547d0b3e874da1e,
   0x22a672eab2b1a3ff3ed91563205a56ca5a560e08,
   0x7b2f052a372951d02798853e39ee56c895109992,
   0x2f0176cc3a8617b6ddea6a501028fa4c6fc25ca1,
   0xe4d51117832e84f1d082e9fc12439b771a57e7b2,
   0x32bd7c33bb5060a85f361caf20c0bda9075c5d51]

/-- updateCandidates: the contract path is commented out in the source, so
the roster is always the hard-coded list and the error is always nil. -/
def updateCandidates (s : DporSnapshot) (_header : Header) :
    Except DporError DporSnapshot :=
  .ok { s with candidates := candidateAddresses }

/-- The loop of updateRpts: one Rpt per candidate, with the running index
as the int64 score. -/
def mkRptsFrom (i : Nat) : List Address → RptList
  | [] => []
  | c :: cs => { address := c, rpt := Int.ofNat i } :: mkRptsFrom (i + 1) cs

/-- updateRpts: builds one reputation entry per current candidate whose
score is the 0-based index of the candidate; the error is always nil. -/
def updateRpts (s : DporSnapshot) (_header : Header) :
    Except DporError RptList :=
  .ok (mkRptsFrom 0 s.candidates)

/-- ifUseDefaultSigners: current number below MaxInitBlockNumber. -/
def DporSnapshot.ifUseDefaultSigners (s : DporSnapshot) : Bool :=
  s.number < s.config.maxInitBlockNumber

/-- ifStartElection: current number at least MaxInitBlockNumber minus
TermLen ⬝ (TermGapBetweenElectionAndMining - 1) ⬝ ViewLen, all in uint64
arithmetic (the subtraction wraps when the threshold is small). -/
def DporSnapshot.ifStartElection (s : DporSnapshot) : Bool :=
  u64sub s.config.maxInitBlockNumber
      (u64mul (u64mul s.config.termLen (TermGapBetweenElectionAndMining - 1))
        s.config.viewLen)
    ≤ s.number

/-- updateSigners: slice the first TermLen candidates (a Go runtime panic,
modelled as slicePanic, when TermLen exceeds the roster length); install
them at Term + 1 while default signers are in use; when the election has
started, install the elected committee at FutureTermOf of the current
number. Both installs go to the signers map. -/
def updateSigners (elect : ElectFn) (s : DporSnapshot) (rpts : RptList)
    (seed : Int) : Except DporError DporSnapshot :=
  if s.config.termLen ≤ s.candidates.length then
    let defaultSigners := s.candidates.take s.config.termLen
    let s1 := if s.ifUseDefaultSigners
      then setRecentSigners s (u64add s.Term 1) defaultSigners else s
    let s2 := if s1.ifStartElection
      then setRecentSigners s1 (s1.FutureTermOf s1.number)
        (elect rpts seed s1.config.termLen)
      else s1
    .ok s2
  else .error .slicePanic

/-- Modelled from the spec: IsCheckPoint lives in a dpor utility file that
is not under src; per the spec a checkpoint is a block whose number is the
first in a new term, (n - 1) mod (TermLen × ViewLen) == 0, taken here in
uint64 arithmetic over the wrapped product. -/
def IsCheckPoint (number termLen viewLen : Nat) : Bool :=
  u64sub number 1 % u64mul termLen viewLen = 0

/-- applyHeader: set number and hash from the header, refresh candidates
and reputations, and on a checkpoint run updateSigners with the seed taken
from the low 64 bits of the header hash read as int64. -/
def applyHeader (elect : ElectFn) (s : DporSnapshot) (header : Header) :
    Except DporError DporSnapshot :=
  let s1 := { s with number := header.number, hash := header.hashVal }
  match updateCandidates s1 header with
  | .error e => .error e
  | .ok s2 =>
    match updateRpts s2 header with
    | .error e => .error e
    | .ok rpts =>
      if IsCheckPoint s2.number s2.config.termLen s2.config.viewLen then
        updateSigners elect s2 rpts (toInt64 header.hashVal)
      else .ok s2

/-- copy: deep copy of number, hash and candidates, but all three recent
maps are replayed through setRecentSigners, so signers, proposers and
validators all land in the signers map of the copy (iteration in ascending
key order, standing in for the unspecified Go map order). -/
def DporSnapshot.copy (s : DporSnapshot) : DporSnapshot :=
  let cpy : DporSnapshot :=
    { config := s.config, number := s.number, hash := s.hash
      candidates := s.candidates
      recentSigners := [], recentProposers := [], recentValidators := [] }
  let cpy := s.recentSigners.foldl (fun c p => setRecentSigners c p.1 p.2) cpy
  let cpy := s.recentProposers.foldl (fun c p => setRecentSigners c p.1 p.2) cpy
  s.recentValidators.foldl (fun c p => setRecentSigners c p.1 p.2) cpy

/-- The pairwise contiguity scan of apply: every next header number is the
previous plus one (uint64). -/
def contiguousB : List Header → Bool
  | [] => true
  | [_] => true
  | a :: b :: rest => (b.number = u64add a.number 1 : Bool) && contiguousB (b :: rest)

/-- apply: empty batches return the snapshot itself; otherwise validate
contiguity and the starting number, then fold applyHeader over a deep
copy, finally restating number and hash from the last header. -/
def DporSnapshot.apply (elect : ElectFn) (s : DporSnapshot) :
    List Header → Except DporError DporSnapshot
  | [] => .ok s
  | h0 :: rest =>
    if ¬ contiguousB (h0 :: rest) then .error .invalidChain
    else if h0.number ≠ u64add s.number 1 then .error .invalidChain
    else
      match (h0 :: rest).foldlM (fun c hd => applyHeader elect c hd) s.copy with
      | .error e => .error e
      | .ok snap =>
        let last := (h0 :: rest).getLastD h0
        .ok { snap with number := last.number, hash := last.hashVal }

/-- SignersOf: recent signers at the term of the given number. -/
def SignersOf (s : DporSnapshot) (number : Nat) : List Address :=
  getRecentSigners s (s.TermOf number)

/-- ValidatorsOf. -/
def ValidatorsOf (s : DporSnapshot) (number : Nat) : List Address :=
  getRecentValidators s (s.TermOf number)

/-- ProposersOf. -/
def ProposersOf (s : DporSnapshot) (number : Nat) : List Address :=
  getRecentProposers s (s.TermOf number)

/-- First index of an address in a committee, none when absent; this is
the view position scanned by the ...ViewOf queries. -/
def idxOf? : List Address → Address → Option Nat
  | [], _ => none
  | x :: xs, a => if x = a then some 0 else (idxOf? xs a).map (· + 1)

/-- ProposerViewOf: first view whose proposer matches, otherwise the
proposer NotInCommittee error. -/
def ProposerViewOf (s : DporSnapshot) (proposer : Address) (number : Nat) :
    Except DporError Nat :=
  match idxOf? (ProposersOf s number) proposer with
  | some view => .ok view
  | none => .error .proposerNotInCommittee

/-- ValidatorViewOf. -/
def ValidatorViewOf (s : DporSnapshot) (validator : Address) (number : Nat) :
    Except DporError Nat :=
  match idxOf? (ValidatorsOf s number) validator with
  | some view => .ok view
  | none => .error .validatorNotInCommittee

/-- IsLeaderOf: genesis has no leader; otherwise the proposer view must
equal ((number - 1) mod (TermLen × ViewLen)) / ViewLen. -/
def IsLeaderOf (s : DporSnapshot) (signer : Address) (number : Nat) :
    Except DporError Bool :=
  if number = 0 then .error .genesisBlockNumber
  else
    match ProposerViewOf s signer number with
    | .error e => .error e
    | .ok view =>
      .ok (view = (number - 1) % u64mul s.config.termLen s.config.viewLen
        / s.config.viewLen : Bool)

/-- IsProposerOf: same rule as IsLeaderOf. -/
def IsProposerOf (s : DporSnapshot) (signer : Address) (number : Nat) :
    Except DporError Bool :=
  if number = 0 then .error .genesisBlockNumber
  else
    match ProposerViewOf s signer number with
    | .error e => .error e
    | .ok view =>
      .ok (view = (number - 1) % u64mul s.config.termLen s.config.viewLen
        / s.config.viewLen : Bool)

/-- FutureSignersOf: recent signers at the future term of the number. -/
def FutureSignersOf (s : DporSnapshot) (number : Nat) : List Address :=
  getRecentSigners s (s.FutureTermOf number)

/-- FutureProposersOf. -/
def FutureProposersOf (s : DporSnapshot) (number : Nat) : List Address :=
  getRecentProposers s (s.FutureTermOf number)

/-- InturnOf: IsProposerOf with errors swallowed to false. -/
def InturnOf (s : DporSnapshot) (number : Nat) (signer : Address) : Bool :=
  match IsProposerOf s signer number with
  | .ok b => b
  | .error _ => false

/-- The JSON-visible fields of a snapshot, in their declared order; the
config is not serialized. -/
structure SnapData where
  number : Nat
  hash : Hash
  candidates : List Address
  recentSigners : CommitteeMap
  recentProposers : CommitteeMap
  recentValidators : CommitteeMap
  deriving DecidableEq, Repr, Inhabited

/-- json.Marshal of a snapshot, at the level of the canonical structured
encoding. -/
def encodeSnapshot (s : DporSnapshot) : SnapData :=
  { number := s.number, hash := s.hash, candidates := s.candidates
    recentSigners := s.recentSigners, recentProposers := s.recentProposers
    recentValidators := s.recentValidators }

/-- json.Unmarshal followed by re-attaching the runtime config. -/
def decodeSnapshot (d : SnapData) (config : DporConfig) : DporSnapshot :=
  { config := config, number := d.number, hash := d.hash
    candidates := d.candidates, recentSigners := d.recentSigners
    recentProposers := d.recentProposers
    recentValidators := d.recentValidators }

/-- The 32 big-endian bytes of a hash value. -/
def hashBytes (h : Hash) : List Nat :=
  (List.range 32).map (fun i => h / 256 ^ (31 - i) % 256)

/-- The database key of a stored snapshot: the bytes of the string
dpor- followed by the 32 hash bytes. -/
def dporKey (h : Hash) : List Nat :=
  [100, 112, 111, 114, 45] ++ hashBytes h

/-- The key-value store, newest entry first. -/
abbrev DB := List (List Nat × SnapData)

/-- db.Put. -/
def dbPut (db : DB) (k : List Nat) (v : SnapData) : DB := (k, v) :: db

/-- db.Get: nil on a missing key. -/
def dbGet (db : DB) (k : List Nat) : Option SnapData :=
  (db.find? (fun p => p.1 == k)).map (fun p => p.2)

/-- store: a single put of the encoded snapshot under dpor- plus the
snapshot hash. -/
def DporSnapshot.store (s : DporSnapshot) (db : DB) : DB :=
  dbPut db (dporKey s.hash) (encodeSnapshot s)

/-- loadSnapshot: fetch the blob under dpor- plus the hash, decode it and
re-inject the config. -/
def loadSnapshot (config : DporConfig) (db : DB) (hash : Hash) :
    Except DporError DporSnapshot :=
  match dbGet db (dporKey hash) with
  | none => .error .notFound
  | some d => .ok (decodeSnapshot d config)

end Dpor

namespace Miner

open Dpor

/-- An entry of the unconfirmed set: block number and hash of a locally
mined block. -/
structure UnconfirmedBlock where
  index : Nat
  hash : Dpor.Hash
  deriving DecidableEq, Repr, Inhabited

/-- How Shift classifies an aged-out entry against the canonical chain. -/
inductive BlockStatus where
  | unknown
  | canonical
  | sideFork
  deriving DecidableEq, Repr, Inhabited

/-- The headerRetriever callback: canonical header by number, none when
the chain has no such header. -/
abbrev HeaderRetriever := Nat → Option Header

/-- The unconfirmed set: the ring of entries in front-to-back order plus
the configured depth. -/
structure UnconfirmedBlocks where
  depth : Nat
  blocks : List UnconfirmedBlock
  deriving DecidableEq, Repr, Inhabited

/-- newUnconfirmedBlocks. -/
def newUnconfirmedBlocks (depth : Nat) : UnconfirmedBlocks :=
  { depth := depth, blocks := [] }

/-- The classification switch of Shift: no header means unknown, matching
hash means canonical inclusion, otherwise a side fork. -/
def classify (chain : HeaderRetriever) (b : UnconfirmedBlock) : BlockStatus :=
  match chain b.index with
  | none => .unknown
  | some hdr => if hdr.hashVal = b.hash then .canonical else .sideFork

/-- The front-aging loop of Shift: drop and classify front entries while
index + depth ≤ height (uint64 addition), stop at the first fresh one. -/
def shiftLoop (chain : HeaderRetriever) (depth height : Nat) :
    List UnconfirmedBlock → List UnconfirmedBlock × List (UnconfirmedBlock × BlockStatus)
  | [] => ([], [])
  | b :: rest =>
    if u64add b.index depth ≤ height then
      let (left, reports) := shiftLoop chain depth height rest
      (left, (b, classify chain b) :: reports)
    else (b :: rest, [])

/-- Shift: age out all old-enough front entries, reporting one
classification per dropped entry. -/
def UnconfirmedBlocks.Shift (set : UnconfirmedBlocks) (chain : HeaderRetriever)
    (height : Nat) : UnconfirmedBlocks × List (UnconfirmedBlock × BlockStatus) :=
  let (left, reports) := shiftLoop chain set.depth height set.blocks
  ({ set with blocks := left }, reports)

/-- Insert: first Shift at the new index, then append the entry at the
back of the ring. -/
def UnconfirmedBlocks.Insert (set : UnconfirmedBlocks) (chain : HeaderRetriever)
    (index : Nat) (hash : Dpor.Hash) :
    UnconfirmedBlocks × List (UnconfirmedBlock × BlockStatus) :=
  let (s1, reports) := set.Shift chain index
  ({ s1 with blocks := s1.blocks ++ [{ index := index, hash := hash }] }, reports)

end Miner

namespace Dpor

theorem apply_cons_eq (elect : ElectFn) (s : DporSnapshot) (h0 : Header)
    (rest : List Header) :
    s.apply elect (h0 :: rest)
      = (if ¬ contiguousB (h0 :: rest) then Except.error DporError.invalidChain
         else if h0.number ≠ u64add s.number 1 then Except.error DporError.invalidChain
         else
           match (h0 :: rest).foldlM (fun c hd => applyHeader elect c hd) s.copy with
           | .error e => .error e
           | .ok snap =>
             let last := (h0 :: rest).getLastD h0
             .ok { snap with number := last.number, hash := last.hashVal }) := rfl

theorem applyHeader_error_eq (elect : ElectFn) (s : DporSnapshot) (h : Header)
    (e : DporError) (he : applyHeader elect s h = .error e) : e = .slicePanic := by
  simp only [applyHeader, updateCandidates, updateRpts] at he
  split at he
  · simp only [updateSigners] at he
    split at he
    · exact absurd he (by simp)
    · simp only [Except.error.injEq] at he
      exact he.symm
  · exact absurd he (by simp)

theorem foldlM_applyHeader_error (elect : ElectFn) (hs : List Header)
    (init : DporSnapshot) (e : DporError)
    (he : hs.foldlM (fun c hd => applyHeader elect c hd) init = .error e) :
    e = .slicePanic := by
  induction hs generalizing init with
  | nil => exact Except.noConfusion he
  | cons h t ih =>
    rw [List.foldlM_cons] at he
    cases hah : applyHeader elect init h with
    | error e0 =>
      rw [hah] at he
      have hred : ((Except.error e0 : Except DporError DporSnapshot) >>= fun b =>
          t.foldlM (fun c hd => applyHeader elect c hd) b)
          = (Except.error e0 : Except DporError DporSnapshot) := rfl
      rw [hred] at he
      simp only [Except.error.injEq] at he
      exact he ▸ applyHeader_error_eq elect init h e0 hah
    | ok u =>
      rw [hah] at he
      exact ih u he

theorem foldlM_applyHeader_prefix (elect : ElectFn) (p q : List Header)
    (init t : DporSnapshot)
    (hok : (p ++ q).foldlM (fun c hd => applyHeader elect c hd) init = .ok t) :
    ∃ u, p.foldlM (fun c hd => applyHeader elect c hd) init = .ok u := by
  induction p generalizing init with
  | nil => exact ⟨init, rfl⟩
  | cons h rest ih =>
    rw [List.cons_append, List.foldlM_cons] at hok
    cases hah : applyHeader elect init h with
    | error e0 =>
      rw [hah] at hok
      have hred : ((Except.error e0 : Except DporError DporSnapshot) >>= fun b =>
          (rest ++ q).foldlM (fun c hd => applyHeader elect c hd) b)
          = (Except.error e0 : Except DporError DporSnapshot) := rfl
      rw [hred] at hok
      exact Except.noConfusion hok
    | ok u =>
      rw [hah] at hok
      obtain ⟨v, hv⟩ := ih u hok
      refine ⟨v, ?_⟩
      rw [List.foldlM_cons, hah]
      exact hv

theorem cmGet?_cmInsert_self (m : CommitteeMap) (k : Nat) (v : List Address) :
    cmGet? (cmInsert m k v) k = some v := by
  induction m with
  | nil => simp [cmInsert, cmGet?]
  | cons p rest ih =>
    obtain ⟨k0, v0⟩ := p
    by_cases h1 : k < k0
    · simp [cmInsert, cmGet?, h1]
    · by_cases h2 : k = k0
      · simp [cmInsert, cmGet?, h1, h2]
      · simp only [cmInsert, if_neg h1, if_neg h2, cmGet?]
        rw [if_neg (fun hk => h2 hk.symm)]
        exact ih

theorem cmGet?_cmInsert_ne (m : CommitteeMap) (k : Nat) (v : List Address)
    (t : Nat) (h : k ≠ t) : cmGet? (cmInsert m k v) t = cmGet? m t := by
  induction m with
  | nil => simp [cmInsert, cmGet?, fun ht => h ht]
  | cons p rest ih =>
    obtain ⟨k0, v0⟩ := p
    by_cases h1 : k < k0
    · simp [cmInsert, cmGet?, h1, fun ht => h ht]
    · by_cases h2 : k = k0
      · subst h2
        simp [cmInsert, cmGet?, h1, fun ht => h ht]
      · simp only [cmInsert, if_neg h1, if_neg h2, cmGet?]
        by_cases h3 : k0 = t
        · simp [h3]
        · simp [h3, ih]

theorem cmGet?_cmErase_self (m : CommitteeMap) (k : Nat) :
    cmGet? (cmErase m k) k = none := by
  induction m with
  | nil => simp [cmErase, cmGet?]
  | cons p rest ih =>
    obtain ⟨k0, v0⟩ := p
    by_cases h1 : k0 = k
    · simp [cmErase, h1, ih]
    · simp [cmErase, cmGet?, h1, ih]

theorem cmGet?_cmErase_ne (m : CommitteeMap) (k t : Nat) (h : k ≠ t) :
    cmGet? (cmErase m k) t = cmGet? m t := by
  induction m with
  | nil => simp [cmErase]
  | cons p rest ih =>
    obtain ⟨k0, v0⟩ := p
    by_cases h1 : k0 = k
    · subst h1
      simp [cmErase, cmGet?, h, ih]
    · simp only [cmErase, if_neg h1, cmGet?]
      by_cases h3 : k0 = t
      · simp [h3]
      · simp [h3, ih]

theorem evicteeOf_ne (t : Nat) : evicteeOf t ≠ t := by
  unfold evicteeOf
  by_cases h : 5 ≤ t
  · simp only [if_pos h]
    omega
  · simp only [if_neg h]
    omega

theorem setRecentSigners_get_self (s : DporSnapshot) (t : Nat) (v : List Address) :
    cmGet? (setRecentSigners s t v).recentSigners t = some v := by
  simp only [setRecentSigners]
  rw [cmGet?_cmErase_ne _ _ _ (evicteeOf_ne t), cmGet?_cmInsert_self]

theorem setRecentSigners_get_evictee (s : DporSnapshot) (t : Nat) (v : List Address) :
    cmGet? (setRecentSigners s t v).recentSigners (evicteeOf t) = none := by
  simp only [setRecentSigners]
  exact cmGet?_cmErase_self _ _

theorem setRecentSigners_get_other (s : DporSnapshot) (t : Nat) (v : List Address)
    (u : Nat) (hu1 : u ≠ t) (hu2 : u ≠ evicteeOf t) :
    cmGet? (setRecentSigners s t v).recentSigners u = cmGet? s.recentSigners u := by
  simp only [setRecentSigners]
  rw [cmGet?_cmErase_ne _ _ _ (fun h => hu2 h.symm),
    cmGet?_cmInsert_ne _ _ _ _ (fun h => hu1 h.symm)]

theorem updateSigners_eq (elect : ElectFn) (s : DporSnapshot) (rpts : RptList)
    (seed : Int) :
    updateSigners elect s rpts seed
      = (if s.config.termLen ≤ s.candidates.length then
           Except.ok
             (if (if s.ifUseDefaultSigners then
                    setRecentSigners s (u64add s.Term 1)
                      (s.candidates.take s.config.termLen)
                  else s).ifStartElection then
                setRecentSigners
                  (if s.ifUseDefaultSigners then
                     setRecentSigners s (u64add s.Term 1)
                       (s.candidates.take s.config.termLen)
                   else s)
                  ((if s.ifUseDefaultSigners then
                      setRecentSigners s (u64add s.Term 1)
                        (s.candidates.take s.config.termLen)
                    else s).FutureTermOf
                    (if s.ifUseDefaultSigners then
                       setRecentSigners s (u64add s.Term 1)
                         (s.candidates.take s.config.termLen)
                     else s).number)
                  (elect rpts seed
                    (if s.ifUseDefaultSigners then
                       setRecentSigners s (u64add s.Term 1)
                         (s.candidates.take s.config.termLen)
                     else s).config.termLen)
              else
                (if s.ifUseDefaultSigners then
                   setRecentSigners s (u64add s.Term 1)
                     (s.candidates.take s.config.termLen)
                 else s))
         else Except.error DporError.slicePanic) := rfl

theorem updateSigners_ok_spec (elect : ElectFn) (s t : DporSnapshot)
    (rpts : RptList) (seed : Int)
    (hok : updateSigners elect s rpts seed = .ok t)
    (hstart : s.ifStartElection = true) :
    t.config = s.config ∧ t.number = s.number ∧ t.hash = s.hash
    ∧ cmGet? t.recentSigners (s.FutureTermOf s.number)
        = some (elect rpts seed s.config.termLen)
    ∧ t.recentProposers = s.recentProposers
    ∧ t.recentValidators = s.recentValidators := by
  rw [updateSigners_eq] at hok
  by_cases hlen : s.config.termLen ≤ s.candidates.length
  · rw [if_pos hlen] at hok
    by_cases hd : s.ifUseDefaultSigners = true
    · rw [if_pos hd] at hok
      have hstart2 : (setRecentSigners s (u64add s.Term 1)
          (s.candidates.take s.config.termLen)).ifStartElection = true := hstart
      rw [if_pos hstart2] at hok
      have ht : setRecentSigners
          (setRecentSigners s (u64add s.Term 1) (s.candidates.take s.config.termLen))
          ((setRecentSigners s (u64add s.Term 1)
            (s.candidates.take s.config.termLen)).FutureTermOf
            (setRecentSigners s (u64add s.Term 1)
              (s.candidates.take s.config.termLen)).number)
          (elect rpts seed
            (setRecentSigners s (u64add s.Term 1)
              (s.candidates.take s.config.termLen)).config.termLen) = t := by
        simpa only [Except.ok.injEq] using hok
      subst ht
      exact ⟨rfl, rfl, rfl, setRecentSigners_get_self _ _ _, rfl, rfl⟩
    · rw [if_neg hd] at hok
      have hstart2 : s.ifStartElection = true := hstart
      rw [if_pos hstart2] at hok
      have ht : setRecentSigners s (s.FutureTermOf s.number)
          (elect rpts seed s.config.termLen) = t := by
        simpa only [Except.ok.injEq] using hok
      subst ht
      exact ⟨rfl, rfl, rfl, setRecentSigners_get_self _ _ _, rfl, rfl⟩
  · rw [if_neg hlen] at hok
    exact Except.noConfusion hok

theorem applyHeader_eq (elect : ElectFn) (s : DporSnapshot) (h : Header) :
    applyHeader elect s h
      = (if IsCheckPoint h.number s.config.termLen s.config.viewLen then
           updateSigners elect
             { s with number := h.number, hash := h.hashVal, candidates := candidateAddresses }
             (mkRptsFrom 0 candidateAddresses) (toInt64 h.hashVal)
         else
           Except.ok { s with number := h.number, hash := h.hashVal, candidates := candidateAddresses }) := rfl

/-- A sample configuration: TermLen 4, ViewLen 3, MaxInitBlockNumber 48. -/
def config0 : DporConfig := { termLen := 4, viewLen := 3, maxInitBlockNumber := 48 }

/-- A sample election function for concrete runs: the first k addresses of
the reputation list. -/
def elect0 : ElectFn := fun rpts _seed k => (rpts.map (fun r => r.address)).take k

/-- A sample snapshot at block 24 whose signers map holds the seed
committee of term 1. -/
def snap0 : DporSnapshot := newSnapshot config0 24 999 [1, 2, 3, 4]

/-- A sample checkpoint header (block 25 opens term 2). -/
def header25 : Header := { number := 25, hashVal := 777 }

/-- The successor header of header25. -/
def header26 : Header := { number := 26, hashVal := 888 }

/-- A gapped header (26 is skipped after 25). -/
def header27 : Header := { number := 27, hashVal := 555 }

theorem mkRptsFrom_get? (cs : List Address) (j i : Nat) :
    (mkRptsFrom j cs).get? i
      = (cs.get? i).map (fun c => { address := c, rpt := Int.ofNat (j + i) }) := by
  induction cs generalizing j i with
  | nil => simp [mkRptsFrom]
  | cons c cs ih =>
    cases i with
    | zero => simp [mkRptsFrom]
    | succ i =>
      have harith : j + 1 + i = j + (i + 1) := by omega
      simp only [mkRptsFrom, List.get?_cons_succ, ih (j + 1) i, harith]

/-- C8: TermOf 0 is 0, TermOf n is (n - 1) / (TermLen × ViewLen) for
positive n, FutureTermOf adds the gap 3, and at term boundaries
TermOf (k × TermLen × ViewLen) = k - 1 while
TermOf (k × TermLen × ViewLen + 1) = k. -/
theorem termOf_spec (s : DporSnapshot) (n k : Nat)
    (htl : 0 < s.config.termLen) (hvl : 0 < s.config.viewLen)
    (hL : s.config.termLen * s.config.viewLen < U64)
    (hn : 0 < n) (hk : 1 ≤ k)
    (hfb : s.TermOf n + 3 < U64)
    (hkb : k * (s.config.termLen * s.config.viewLen) + 1 < U64) :
    s.TermOf 0 = 0
    ∧ s.TermOf n = (n - 1) / (s.config.termLen * s.config.viewLen)
    ∧ s.FutureTermOf n = s.TermOf n + 3
    ∧ s.TermOf (k * (s.config.termLen * s.config.viewLen)) = k - 1
    ∧ s.TermOf (k * (s.config.termLen * s.config.viewLen) + 1) = k := by
  have hmul : u64mul s.config.termLen s.config.viewLen
      = s.config.termLen * s.config.viewLen := Nat.mod_eq_of_lt hL
  set L := s.config.termLen * s.config.viewLen with hLdef
  have hL0 : 0 < L := Nat.mul_pos htl hvl
  refine ⟨rfl, ?_, ?_, ?_, ?_⟩
  · simp [DporSnapshot.TermOf, Nat.pos_iff_ne_zero.mp hn, hmul]
  · simp only [DporSnapshot.FutureTermOf, u64add, TermGapBetweenElectionAndMining]
    exact Nat.mod_eq_of_lt hfb
  · have hkL : k * L ≠ 0 := by positivity
    simp only [DporSnapshot.TermOf, if_neg hkL, hmul]
    obtain ⟨k0, rfl⟩ : ∃ k0, k = k0 + 1 := ⟨k - 1, by omega⟩
    have hsplit : (k0 + 1) * L - 1 = L * k0 + (L - 1) := by
      have hexp : (k0 + 1) * L = L * k0 + L := by ring
      omega
    rw [hsplit, Nat.mul_add_div hL0, Nat.div_eq_of_lt (by omega)]
    omega
  · simp only [DporSnapshot.TermOf, if_neg (Nat.succ_ne_zero _), hmul,
      Nat.add_sub_cancel]
    rw [Nat.mul_comm]
    exact Nat.mul_div_cancel_left k hL0

/-- Witness for C8 at TermLen 4, ViewLen 3, n = 25, k = 2. -/
theorem termOf_spec_witness :
    snap0.TermOf 0 = 0
    ∧ snap0.TermOf 25 = (25 - 1) / (snap0.config.termLen * snap0.config.viewLen)
    ∧ snap0.FutureTermOf 25 = snap0.TermOf 25 + 3
    ∧ snap0.TermOf (2 * (snap0.config.termLen * snap0.config.viewLen)) = 2 - 1
    ∧ snap0.TermOf (2 * (snap0.config.termLen * snap0.config.viewLen) + 1) = 2 :=
  termOf_spec snap0 25 2 (by decide) (by decide) (by decide) (by decide)
    (by decide) (by decide) (by decide)

/-- Counterexample to C4 as stated: a genesis snapshot built from seed
signers [1, 2, 3, 4] answers the empty committee, not the seed committee,
to ProposersOf 0, because newSnapshot only fills the signers map. -/
theorem newSnapshot_counterexample :
    ProposersOf (newSnapshot config0 0 555 [1, 2, 3, 4]) 0 ≠ [1, 2, 3, 4]
    ∧ ProposersOf (newSnapshot config0 0 555 [1, 2, 3, 4]) 0 = [] := by
  decide

/-- C4 (amended): newSnapshot installs the seed signers at the term of the
given number in the signers map only; the proposers and validators maps
start empty, so for a genesis snapshot SignersOf 0 returns the seed
committee while ProposersOf 0 and ValidatorsOf 0 return the empty
committee. -/
theorem newSnapshot_spec (config : DporConfig) (number : Nat) (hash : Hash)
    (signers : List Address) :
    cmGet? (newSnapshot config number hash signers).recentSigners
        (newSnapshot config number hash signers).Term = some signers
    ∧ (newSnapshot config number hash signers).recentProposers = []
    ∧ (newSnapshot config number hash signers).recentValidators = []
    ∧ (number = 0 →
        SignersOf (newSnapshot config number hash signers) 0 = signers
        ∧ ProposersOf (newSnapshot config number hash signers) 0 = []
        ∧ ValidatorsOf (newSnapshot config number hash signers) 0 = []) := by
  refine ⟨?_, rfl, rfl, ?_⟩
  · exact setRecentSigners_get_self _ _ _
  · intro h0
    subst h0
    have h1 : cmGet? (newSnapshot config 0 hash signers).recentSigners 0 = some signers := by
      have h2 := setRecentSigners_get_self
        { config := config, number := 0, hash := hash, candidates := [],
          recentSigners := [], recentProposers := [], recentValidators := [] }
        0 signers
      exact h2
    refine ⟨?_, rfl, rfl⟩
    have hterm : (newSnapshot config 0 hash signers).TermOf 0 = 0 := rfl
    simp only [SignersOf, getRecentSigners, hterm, h1, Option.getD_some]

/-- Witness for C4 (amended) at the genesis input of the end-to-end
scenario. -/
theorem newSnapshot_spec_witness :
    SignersOf (newSnapshot config0 0 555 [1, 2, 3, 4]) 0 = [1, 2, 3, 4]
    ∧ ProposersOf (newSnapshot config0 0 555 [1, 2, 3, 4]) 0 = [] :=
  ⟨((newSnapshot_spec config0 0 555 [1, 2, 3, 4]).2.2.2 rfl).1,
   ((newSnapshot_spec config0 0 555 [1, 2, 3, 4]).2.2.2 rfl).2.1⟩

/-- A snapshot whose proposers map holds terms 0 through 4. -/
def snapP : DporSnapshot :=
  { config := config0, number := 60, hash := 5, candidates := []
    recentSigners := []
    recentProposers := [(0, [11]), (1, [12]), (2, [13]), (3, [14]), (4, [15])]
    recentValidators := [] }

/-- Counterexample to C6 as stated: installing a proposer committee at
term 10 leaves term 3 (strictly older than 10 - 5) in place and the map
ends up with 6 entries, more than MaxRecentTerms. -/
theorem eviction_counterexample :
    cmGet? (setRecentProposers snapP 10 [16]).recentProposers 3 = some [14]
    ∧ ((setRecentProposers snapP 10 [16]).recentProposers).length = 6 := by
  decide

/-- C6 (amended): installing a committee at term T stores it at T and
evicts exactly the single term T - MaxRecentTerms (for T < MaxRecentTerms
the computed index underflows to an out-of-range value and nothing real is
evicted); every other term is untouched, so strictly older surviving terms
can push the mappings beyond MaxRecentTerms entries. -/
theorem setRecent_eviction_spec (s : DporSnapshot) (term : Nat)
    (committee : List Address) :
    cmGet? (setRecentProposers s term committee).recentProposers term = some committee
    ∧ cmGet? (setRecentProposers s term committee).recentProposers (evicteeOf term) = none
    ∧ (∀ u, u ≠ term → u ≠ evicteeOf term →
        cmGet? (setRecentProposers s term committee).recentProposers u
          = cmGet? s.recentProposers u)
    ∧ cmGet? (setRecentValidators s term committee).recentValidators term = some committee
    ∧ cmGet? (setRecentValidators s term committee).recentValidators (evicteeOf term) = none
    ∧ (∀ u, u ≠ term → u ≠ evicteeOf term →
        cmGet? (setRecentValidators s term committee).recentValidators u
          = cmGet? s.recentValidators u)
    ∧ (5 ≤ term → evicteeOf term = term - 5) := by
  refine ⟨?_, ?_, ?_, ?_, ?_, ?_, ?_⟩
  · simp only [setRecentProposers]
    rw [cmGet?_cmErase_ne _ _ _ (evicteeOf_ne term), cmGet?_cmInsert_self]
  · simp only [setRecentProposers]
    exact cmGet?_cmErase_self _ _
  · intro u hu1 hu2
    simp only [setRecentProposers]
    rw [cmGet?_cmErase_ne _ _ _ (fun h => hu2 h.symm),
      cmGet?_cmInsert_ne _ _ _ _ (fun h => hu1 h.symm)]
  · simp only [setRecentValidators]
    rw [cmGet?_cmErase_ne _ _ _ (evicteeOf_ne term), cmGet?_cmInsert_self]
  · simp only [setRecentValidators]
    exact cmGet?_cmErase_self _ _
  · intro u hu1 hu2
    simp only [setRecentValidators]
    rw [cmGet?_cmErase_ne _ _ _ (fun h => hu2 h.symm),
      cmGet?_cmInsert_ne _ _ _ _ (fun h => hu1 h.symm)]
  · intro h5
    simp [evicteeOf, h5]

/-- Witness for C6 (amended): installing at term 10 over snapP. -/
theorem setRecent_eviction_spec_witness :
    cmGet? (setRecentProposers snapP 10 [16]).recentProposers 10 = some [16]
    ∧ cmGet? (setRecentProposers snapP 10 [16]).recentProposers (evicteeOf 10) = none
    ∧ cmGet? (setRecentProposers snapP 10 [16]).recentProposers 3
        = cmGet? snapP.recentProposers 3
    ∧ evicteeOf 10 = 10 - 5 :=
  ⟨(setRecent_eviction_spec snapP 10 [16]).1,
   (setRecent_eviction_spec snapP 10 [16]).2.1,
   (setRecent_eviction_spec snapP 10 [16]).2.2.1 3 (by decide) (by decide),
   (setRecent_eviction_spec snapP 10 [16]).2.2.2.2.2.2 (by decide)⟩

/-- C5: store writes the snapshot under the single key dpor- plus the
snapshot hash, and loading that key returns a snapshot that agrees with
the original on number, hash, candidates and all three recent maps. -/
theorem store_load_roundtrip (config : DporConfig) (db : DB) (s : DporSnapshot) :
    s.store db = (dporKey s.hash, encodeSnapshot s) :: db
    ∧ ∃ t, loadSnapshot config (s.store db) s.hash = .ok t
        ∧ t.number = s.number ∧ t.hash = s.hash ∧ t.candidates = s.candidates
        ∧ t.recentSigners = s.recentSigners
        ∧ t.recentProposers = s.recentProposers
        ∧ t.recentValidators = s.recentValidators := by
  refine ⟨rfl, decodeSnapshot (encodeSnapshot s) config, ?_, rfl, rfl, rfl, rfl, rfl, rfl⟩
  simp [loadSnapshot, DporSnapshot.store, dbPut, dbGet]

/-- C10: updateCandidates always succeeds with the fixed ten-address
roster regardless of the header, and updateRpts always succeeds with one
entry per candidate whose score is the 0-based candidate index. -/
theorem update_oracles_spec (s : DporSnapshot) (h : Header) :
    updateCandidates s h = .ok { s with candidates := candidateAddresses }
    ∧ candidateAddresses.length = 10
    ∧ (∀ h2 : Header, updateCandidates s h = updateCandidates s h2)
    ∧ updateRpts s h = .ok (mkRptsFrom 0 s.candidates)
    ∧ (∀ i, (mkRptsFrom 0 s.candidates).get? i
        = (s.candidates.get? i).map (fun c => { address := c, rpt := Int.ofNat i }))
    ∧ (∀ h2 : Header, updateRpts s h = updateRpts s h2) := by
  refine ⟨rfl, rfl, fun _ => rfl, rfl, ?_, fun _ => rfl⟩
  intro i
  simpa using mkRptsFrom_get? s.candidates 0 i

/-- A snapshot carrying one proposer term and one validator term, used to
exhibit the copy routing bug. -/
def snapC2 : DporSnapshot :=
  { config := config0, number := 7, hash := 5, candidates := [9]
    recentSigners := [], recentProposers := [(0, [21])]
    recentValidators := [(0, [22])] }

/-- C2 evaluated at a failing input: copy routes both the proposer and the
validator committees through setRecentSigners, so the copy has empty
proposers and validators maps and the committees are merged (and here
overwritten) in its signers map, while candidates, number and hash do
round-trip. -/
theorem copy_bug :
    (snapC2.copy).recentProposers = []
    ∧ (snapC2.copy).recentValidators = []
    ∧ (snapC2.copy).recentSigners = [(0, [22])]
    ∧ snapC2.recentProposers = [(0, [21])]
    ∧ snapC2.recentValidators = [(0, [22])]
    ∧ (snapC2.copy).candidates = snapC2.candidates
    ∧ (snapC2.copy).number = snapC2.number
    ∧ (snapC2.copy).hash = snapC2.hash := by
  decide

theorem idxOf?_eq_none_iff (l : List Address) (a : Address) :
    idxOf? l a = none ↔ a ∉ l := by
  induction l with
  | nil => simp [idxOf?]
  | cons x xs ih =>
    by_cases hx : x = a
    · simp [idxOf?, hx]
    · rw [idxOf?, if_neg hx]
      cases hidx : idxOf? xs a with
      | none =>
        have hnotmem : a ∉ xs := ih.mp hidx
        simp only [Option.map_none', List.mem_cons, true_iff]
        exact fun hmem => hmem.elim (fun he => hx he.symm) hnotmem
      | some i =>
        have hmem : a ∈ xs := by
          by_contra hc
          rw [ih.mpr hc] at hidx
          exact Option.noConfusion hidx
        simp [List.mem_cons, hmem]

/-- A snapshot holding a term-1 proposer committee, for view queries at
block 13. -/
def snapQ : DporSnapshot :=
  { config := config0, number := 13, hash := 5, candidates := [],
    recentSigners := [], recentProposers := [(1, [31, 32, 33, 34])],
    recentValidators := [] }

/-- C7: at block 0 both IsProposerOf and IsLeaderOf fail with the genesis
error; for positive n an absent address fails with the proposer
NotInCommittee error, a present address yields true exactly when its first
view index equals ((n - 1) mod (TermLen × ViewLen)) / ViewLen, and
IsLeaderOf computes the same answers as IsProposerOf everywhere. -/
theorem isProposerOf_spec (s : DporSnapshot) (a : Address) (n : Nat)
    (hL : s.config.termLen * s.config.viewLen < U64) :
    IsProposerOf s a 0 = .error .genesisBlockNumber
    ∧ IsLeaderOf s a 0 = .error .genesisBlockNumber
    ∧ (0 < n → a ∉ ProposersOf s n →
        IsProposerOf s a n = .error .proposerNotInCommittee)
    ∧ (0 < n → ∀ i, idxOf? (ProposersOf s n) a = some i →
        IsProposerOf s a n
          = .ok (decide (i = (n - 1) % (s.config.termLen * s.config.viewLen)
              / s.config.viewLen)))
    ∧ IsLeaderOf s a n = IsProposerOf s a n := by
  have hmul : u64mul s.config.termLen s.config.viewLen
      = s.config.termLen * s.config.viewLen := Nat.mod_eq_of_lt hL
  refine ⟨rfl, rfl, ?_, ?_, rfl⟩
  · intro hn habs
    have hnone : idxOf? (ProposersOf s n) a = none :=
      (idxOf?_eq_none_iff _ _).mpr habs
    simp [IsProposerOf, Nat.pos_iff_ne_zero.mp hn, ProposerViewOf, hnone]
  · intro hn i hsome
    simp [IsProposerOf, Nat.pos_iff_ne_zero.mp hn, ProposerViewOf, hsome, hmul]

/-- Witness for C7: over snapQ at block 13, address 31 is the in-turn
proposer, address 99 is not in the committee, and IsLeaderOf agrees. -/
theorem isProposerOf_spec_witness :
    IsProposerOf snapQ 99 13 = .error .proposerNotInCommittee
    ∧ IsProposerOf snapQ 31 13
        = .ok (decide ((0 : Nat) = (13 - 1) % (snapQ.config.termLen * snapQ.config.viewLen)
            / snapQ.config.viewLen))
    ∧ IsLeaderOf snapQ 31 13 = IsProposerOf snapQ 31 13 :=
  ⟨(isProposerOf_spec snapQ 99 13 (by decide)).2.2.1 (by decide) (by decide),
   (isProposerOf_spec snapQ 31 13 (by decide)).2.2.2.1 (by decide) 0 (by decide),
   (isProposerOf_spec snapQ 31 13 (by decide)).2.2.2.2⟩

/-- C3: a non-empty batch fails with InvalidChain exactly when some
consecutive pair does not step the number by one or the first number is
not snap.number + 1 (no other error is ever reported as InvalidChain); and
a successful batch means every header was applied: each prefix of the fold
over the deep copy succeeds, so no header is ever applied partially. The
original snapshot value is never modified, apply only builds on a copy. -/
theorem apply_spec (elect : ElectFn) (s : DporSnapshot) (h0 : Header)
    (rest : List Header) :
    (s.apply elect (h0 :: rest) = .error .invalidChain
      ↔ (contiguousB (h0 :: rest) = false ∨ h0.number ≠ u64add s.number 1))
    ∧ (∀ t p q, s.apply elect (h0 :: rest) = .ok t → h0 :: rest = p ++ q →
        ∃ u, p.foldlM (fun c hd => applyHeader elect c hd) s.copy = .ok u) := by
  by_cases hc : contiguousB (h0 :: rest) = true
  · by_cases hn : h0.number = u64add s.number 1
    · constructor
      · constructor
        · intro hbad
          rw [apply_cons_eq] at hbad
          rw [if_neg (not_not_intro hc), if_neg (not_not_intro hn)] at hbad
          cases hfold : (h0 :: rest).foldlM (fun c hd => applyHeader elect c hd) s.copy with
          | error e =>
            rw [hfold] at hbad
            have hbad2 : (Except.error e : Except DporError DporSnapshot)
                = .error .invalidChain := hbad
            simp only [Except.error.injEq] at hbad2
            have hsp := foldlM_applyHeader_error elect _ _ e hfold
            rw [hbad2] at hsp
            exact DporError.noConfusion hsp
          | ok snap =>
            rw [hfold] at hbad
            exact Except.noConfusion (show Except.ok _ = Except.error _ from hbad)
        · intro hor
          rcases hor with hf | hne
          · rw [hc] at hf
            exact Bool.noConfusion hf
          · exact absurd hn hne
      · intro t p q hok hsplit
        rw [apply_cons_eq] at hok
        rw [if_neg (not_not_intro hc), if_neg (not_not_intro hn)] at hok
        cases hfold : (h0 :: rest).foldlM (fun c hd => applyHeader elect c hd) s.copy with
        | error e =>
          rw [hfold] at hok
          exact Except.noConfusion (show Except.error _ = Except.ok _ from hok)
        | ok snap =>
          exact foldlM_applyHeader_prefix elect p q s.copy snap (hsplit ▸ hfold)
    · have happly : s.apply elect (h0 :: rest) = .error .invalidChain := by
        rw [apply_cons_eq, if_neg (not_not_intro hc), if_pos hn]
      refine ⟨⟨fun _ => Or.inr hn, fun _ => happly⟩, ?_⟩
      intro t p q hok _
      rw [happly] at hok
      exact Except.noConfusion hok
  · have happly : s.apply elect (h0 :: rest) = .error .invalidChain := by
      rw [apply_cons_eq, if_pos hc]
    have hcf : contiguousB (h0 :: rest) = false := by
      cases hcb : contiguousB (h0 :: rest) with
      | false => rfl
      | true => exact absurd hcb hc
    refine ⟨⟨fun _ => Or.inl hcf, fun _ => happly⟩, ?_⟩
    intro t p q hok _
    rw [happly] at hok
    exact Except.noConfusion hok

theorem contiguousB_iff (l : List Header) :
    contiguousB l = true ↔ (∀ i hdr1 hdr2, l.get? i = some hdr1 →
      l.get? (i + 1) = some hdr2 → hdr2.number = u64add hdr1.number 1) := by
  induction l with
  | nil => simp [contiguousB]
  | cons a tail ih =>
    cases tail with
    | nil =>
      simp only [contiguousB, true_iff]
      intro i hdr1 hdr2 h1 h2
      cases i with
      | zero => exact Option.noConfusion h2
      | succ j => exact Option.noConfusion h1
    | cons b rest =>
      rw [contiguousB, Bool.and_eq_true, decide_eq_true_iff, ih]
      constructor
      · rintro ⟨hab, hrest⟩ i hdr1 hdr2 h1 h2
        cases i with
        | zero =>
          simp only [List.get?_cons_zero, Option.some.injEq] at h1
          simp only [List.get?_cons_succ, List.get?_cons_zero, Option.some.injEq] at h2
          rw [← h1, ← h2]
          exact hab
        | succ j =>
          simp only [List.get?_cons_succ] at h1 h2
          exact hrest j hdr1 hdr2 h1 h2
      · intro hall
        refine ⟨hall 0 a b rfl rfl, ?_⟩
        intro i hdr1 hdr2 h1 h2
        exact hall (i + 1) hdr1 hdr2 h1 h2

/-- Counterexample to C1 as stated: block 25 is a checkpoint and the batch
[header25] is accepted by apply, the election runs and returns a non-empty
committee, yet FutureProposersOf 25 on the result is the empty committee,
because updateSigners installs the elected committee in the signers map
and never in the proposers or validators maps. -/
theorem checkpoint_election_counterexample :
    (snap0.apply elect0 [header25]).map (fun t => FutureProposersOf t 25) = .ok []
    ∧ (snap0.apply elect0 [header25]).map (fun t => t.recentValidators) = .ok []
    ∧ IsCheckPoint 25 config0.termLen config0.viewLen = true
    ∧ elect0 (mkRptsFrom 0 candidateAddresses) (toInt64 777) config0.termLen ≠ [] :=
  ⟨rfl, rfl, rfl, by decide⟩

/-- C1 (amended): when applyHeader accepts a checkpoint header and the
election phase has started, the election seed is the low 64 bits of the
header hash read as int64 and the elected committee is installed in
recentSigners at FutureTermOf of the header number, so FutureSignersOf
returns it afterwards; the proposers and validators maps are untouched, so
FutureProposersOf still reads whatever the parent snapshot had there. -/
theorem checkpoint_election_spec (elect : ElectFn) (s t : DporSnapshot) (h : Header)
    (hok : applyHeader elect s h = .ok t)
    (hcp : IsCheckPoint h.number s.config.termLen s.config.viewLen = true)
    (hstart : u64sub s.config.maxInitBlockNumber
        (u64mul (u64mul s.config.termLen (TermGapBetweenElectionAndMining - 1))
          s.config.viewLen) ≤ h.number) :
    t.config = s.config
    ∧ t.number = h.number
    ∧ t.hash = h.hashVal
    ∧ cmGet? t.recentSigners (t.FutureTermOf h.number)
        = some (elect (mkRptsFrom 0 candidateAddresses) (toInt64 h.hashVal)
            s.config.termLen)
    ∧ FutureSignersOf t h.number
        = elect (mkRptsFrom 0 candidateAddresses) (toInt64 h.hashVal) s.config.termLen
    ∧ t.recentProposers = s.recentProposers
    ∧ t.recentValidators = s.recentValidators
    ∧ FutureProposersOf t h.number
        = (cmGet? s.recentProposers (t.FutureTermOf h.number)).getD [] := by
  rw [applyHeader_eq, if_pos hcp] at hok
  have hstart2 : ({ s with number := h.number, hash := h.hashVal, candidates := candidateAddresses } : DporSnapshot).ifStartElection = true :=
    decide_eq_true hstart
  have hspec := updateSigners_ok_spec elect
    { s with number := h.number, hash := h.hashVal, candidates := candidateAddresses }
    t (mkRptsFrom 0 candidateAddresses) (toInt64 h.hashVal) hok hstart2
  obtain ⟨hconf, hnum, hhash, hget, hprop, hval⟩ := hspec
  have hFT : t.FutureTermOf h.number
      = ({ s with number := h.number, hash := h.hashVal, candidates := candidateAddresses } : DporSnapshot).FutureTermOf
        ({ s with number := h.number, hash := h.hashVal, candidates := candidateAddresses } : DporSnapshot).number := by
    simp [DporSnapshot.FutureTermOf, DporSnapshot.TermOf, hconf]
  refine ⟨hconf, hnum, hhash, ?_, ?_, hprop, hval, ?_⟩
  · rw [hFT]
    exact hget
  · simp only [FutureSignersOf, getRecentSigners]
    rw [hFT, hget]
    rfl
  · simp only [FutureProposersOf, getRecentProposers]
    rw [hprop]

/-- The snapshot produced by applying header25 to snap0 with elect0. -/
def tElected : DporSnapshot :=
  (applyHeader elect0 snap0 header25).toOption.getD default

/-- Witness for C1 (amended) at the concrete checkpoint run over snap0. -/
theorem checkpoint_election_spec_witness :
    cmGet? tElected.recentSigners (tElected.FutureTermOf 25)
        = some (elect0 (mkRptsFrom 0 candidateAddresses) (toInt64 777)
            snap0.config.termLen)
    ∧ FutureSignersOf tElected 25
        = elect0 (mkRptsFrom 0 candidateAddresses) (toInt64 777) snap0.config.termLen
    ∧ tElected.recentProposers = snap0.recentProposers
    ∧ FutureProposersOf tElected 25
        = (cmGet? snap0.recentProposers (tElected.FutureTermOf 25)).getD [] := by
  have hspec := checkpoint_election_spec elect0 snap0 tElected header25 rfl
    (by decide) (by decide)
  exact ⟨hspec.2.2.2.1, hspec.2.2.2.2.1, hspec.2.2.2.2.2.1, hspec.2.2.2.2.2.2.2⟩

/-- The snapshot produced by a successful two-header batch over snap0. -/
def tApplied : DporSnapshot :=
  (snap0.apply elect0 [header25, header26]).toOption.getD default

/-- Witness for C3: the gapped batch [25, 27] fails with InvalidChain, and
a successful batch has every prefix of the fold succeed. -/
theorem apply_spec_witness :
    snap0.apply elect0 [header25, header27] = .error .invalidChain
    ∧ ∃ u, ([header25] : List Header).foldlM
        (fun c hd => applyHeader elect0 c hd) snap0.copy = .ok u :=
  ⟨(apply_spec elect0 snap0 header25 [header27]).1.mpr (Or.inl (by decide)),
   (apply_spec elect0 snap0 header25 [header26]).2 tApplied [header25] [header26]
     rfl rfl⟩

end Dpor

namespace Miner

open Dpor

theorem shiftLoop_eq (chain : HeaderRetriever) (depth height : Nat)
    (blocks : List UnconfirmedBlock) :
    shiftLoop chain depth height blocks
      = (blocks.dropWhile (fun b => decide (u64add b.index depth ≤ height)),
         (blocks.takeWhile (fun b => decide (u64add b.index depth ≤ height))).map
           (fun b => (b, classify chain b))) := by
  induction blocks with
  | nil => simp [shiftLoop]
  | cons b rest ih =>
    by_cases hb : u64add b.index depth ≤ height
    · simp [shiftLoop, hb, ih, List.dropWhile_cons, List.takeWhile_cons]
    · simp [shiftLoop, hb, List.dropWhile_cons, List.takeWhile_cons]

/-- C9: Shift drops and classifies exactly the maximal front run of
entries with index + depth ≤ height (unknown without a header, canonical
on a hash match, side fork otherwise), Insert is Shift at the new index
followed by appending the entry, and inserting (i, h) into an empty
tracker and shifting to i + depth with a retriever whose header at i
hashes to h reports canonical inclusion exactly once and empties the
tracker. -/
theorem unconfirmed_spec (chain : HeaderRetriever) (set : UnconfirmedBlocks)
    (height index d i : Nat) (h : Dpor.Hash) (hdr : Header)
    (hbound : i + d < U64) (hchain : chain i = some hdr)
    (hhash : hdr.hashVal = h) :
    (set.Shift chain height).1.blocks
        = set.blocks.dropWhile (fun b => decide (u64add b.index set.depth ≤ height))
    ∧ (set.Shift chain height).2
        = (set.blocks.takeWhile (fun b => decide (u64add b.index set.depth ≤ height))).map
            (fun b => (b, classify chain b))
    ∧ (set.Insert chain index h).1.blocks
        = (set.Shift chain index).1.blocks ++ [{ index := index, hash := h }]
    ∧ (set.Insert chain index h).2 = (set.Shift chain index).2
    ∧ (((newUnconfirmedBlocks d).Insert chain i h).1.Shift chain (i + d)).1.blocks = []
    ∧ (((newUnconfirmedBlocks d).Insert chain i h).1.Shift chain (i + d)).2
        = [({ index := i, hash := h }, BlockStatus.canonical)]
    ∧ ((((newUnconfirmedBlocks d).Insert chain i h).1.Shift chain (i + d)).2.countP
          (fun p => p.2 == BlockStatus.canonical)) = 1 := by
  have hloop := shiftLoop_eq chain set.depth height set.blocks
  have hcond : u64add i d ≤ i + d := by
    simp only [u64add]
    exact le_of_eq (Nat.mod_eq_of_lt hbound)
  have ht1 : ((newUnconfirmedBlocks d).Insert chain i h).1
      = { depth := d, blocks := [{ index := i, hash := h }] } := by
    simp [UnconfirmedBlocks.Insert, UnconfirmedBlocks.Shift, newUnconfirmedBlocks,
      shiftLoop]
  have hclass : classify chain { index := i, hash := h } = BlockStatus.canonical := by
    simp [classify, hchain, hhash]
  refine ⟨?_, ?_, ?_, ?_, ?_, ?_, ?_⟩
  · simp [UnconfirmedBlocks.Shift, hloop]
  · simp [UnconfirmedBlocks.Shift, hloop]
  · simp [UnconfirmedBlocks.Insert]
  · simp [UnconfirmedBlocks.Insert]
  · rw [ht1]
    simp [UnconfirmedBlocks.Shift, shiftLoop, hcond]
  · rw [ht1]
    simp [UnconfirmedBlocks.Shift, shiftLoop, hcond, hclass]
  · rw [ht1]
    simp [UnconfirmedBlocks.Shift, shiftLoop, hcond, hclass]

/-- A one-header canonical chain for the tracker witness. -/
def chain0 : HeaderRetriever :=
  fun n => if n = 100 then some { number := 100, hashVal := 42 } else none

/-- Witness for C9: insert block (100, 42) into an empty depth-5 tracker
and shift to height 105 over a chain whose header 100 hashes to 42. -/
theorem unconfirmed_spec_witness :
    (((newUnconfirmedBlocks 5).Insert chain0 100 42).1.Shift chain0 (100 + 5)).1.blocks = []
    ∧ (((newUnconfirmedBlocks 5).Insert chain0 100 42).1.Shift chain0 (100 + 5)).2
        = [({ index := 100, hash := 42 }, BlockStatus.canonical)] := by
  have hspec := unconfirmed_spec chain0 (newUnconfirmedBlocks 5) 0 0 5 100 42
    { number := 100, hashVal := 42 } (by decide) (by decide) (by decide)
  exact ⟨hspec.2.2.2.2.1, hspec.2.2.2.2.2.1⟩

end Miner
